import Mathlib

/-!
Verification of the `zabawa` name validation/normalization subsystem.

The embedding models the Rust crates `zabawa_validation`
(src/crates/validation/src/lib.rs) and `zabawa_name`
(src/crates/name/src/lib.rs).  Rust `&str` / `String` values are modelled
as `List Char`; Rust `str::len()` (UTF-8 byte length) is modelled by
`byteLen`; the external `deunicode::deunicode_char` transliterator is an
abstract parameter `translit : Char → Option (List Char)`.
-/

/-! ## Character predicates (src/crates/name/src/lib.rs) -/

/-- Rust `char::is_ascii_lowercase`: code points 97..122 (ASCII a-z). -/
def is_ascii_lowercase (c : Char) : Bool :=
  97 ≤ c.toNat && c.toNat ≤ 122

/-- Rust `char::is_ascii_uppercase`: code points 65..90 (ASCII A-Z). -/
def is_ascii_uppercase (c : Char) : Bool :=
  65 ≤ c.toNat && c.toNat ≤ 90

/-- Rust `char::is_ascii_digit`: code points 48..57 (ASCII 0-9). -/
def is_ascii_digit (c : Char) : Bool :=
  48 ≤ c.toNat && c.toNat ≤ 57

/-- Rust `char::is_ascii`: code point at most 127. -/
def is_ascii (c : Char) : Bool :=
  c.toNat ≤ 127

/-- Rust `char::to_ascii_lowercase`: shift an ASCII uppercase letter down by
adding 32 to its code point, leave every other character unchanged. -/
def to_ascii_lowercase (c : Char) : Char :=
  if is_ascii_uppercase c then Char.ofNat (c.toNat + 32) else c

/-- Rust `char::is_whitespace`: the Unicode White_Space code points
(9..13, 32, 133, 160, 5760, 8192..8202, 8232, 8233, 8239, 8287, 12288). -/
def is_whitespace (c : Char) : Bool :=
  let n := c.toNat
  (9 ≤ n && n ≤ 13) || n == 32 || n == 133 || n == 160 || n == 5760 ||
    (8192 ≤ n && n ≤ 8202) || n == 8232 || n == 8233 || n == 8239 ||
    n == 8287 || n == 12288

/-- Function `is_name_safe_char` from src/crates/name/src/lib.rs:
ASCII lowercase letter, ASCII digit, `-` (code 45) or `_` (code 95). -/
def is_name_safe_char (ch : Char) : Bool :=
  is_ascii_lowercase ch || is_ascii_digit ch || ch.toNat == 45 || ch.toNat == 95

/-- Function `validate_name_chars` from src/crates/name/src/lib.rs:
every character is name-safe. -/
def validate_name_chars (input : List Char) : Bool :=
  input.all is_name_safe_char

/-! ## UTF-8 byte length and trimming (Rust `str::len`, `str::trim`) -/

/-- Number of UTF-8 bytes a character occupies. -/
def char_utf8_len (c : Char) : Nat :=
  if c.toNat < 128 then 1
  else if c.toNat < 2048 then 2
  else if c.toNat < 65536 then 3
  else 4

/-- Rust `str::len`: total UTF-8 byte length. -/
def byteLen (l : List Char) : Nat :=
  (l.map char_utf8_len).sum

/-- Rust `str::trim`: drop leading and trailing whitespace characters. -/
def trimList (l : List Char) : List Char :=
  ((l.dropWhile is_whitespace).reverse.dropWhile is_whitespace).reverse

/-! ## The `zabawa_validation` crate (src/crates/validation/src/lib.rs) -/

/-- Error struct `InvalidLengthError` with fields min, max, actual. -/
structure InvalidLengthError where
  min : Nat
  max : Nat
  actual : Nat
deriving DecidableEq

/-- Function `validate_length(len, min, max)`:
error with the exact bounds and actual length if `len < min || len > max`. -/
def validate_length (len min max : Nat) : Except InvalidLengthError Unit :=
  if len < min || max < len then
    .error ⟨min, max, len⟩
  else
    .ok ()

/-- Function `validate_trimmed(input)`: `input.len() == input.trim().len()`. -/
def validate_trimmed (input : List Char) : Bool :=
  byteLen input == byteLen (trimList input)

instance {ε α : Type} [DecidableEq ε] [DecidableEq α] : DecidableEq (Except ε α)
  | .error e1, .error e2 =>
    if h : e1 = e2 then .isTrue (by rw [h]) else .isFalse (by simp [h])
  | .error _, .ok _ => .isFalse (by simp)
  | .ok _, .error _ => .isFalse (by simp)
  | .ok a1, .ok a2 =>
    if h : a1 = a2 then .isTrue (by rw [h]) else .isFalse (by simp [h])

/-! ## The `zabawa_name` crate: errors, `Name`, the `NameBulder` trait -/

/-- Error enum `NameError` from src/crates/name/src/lib.rs. -/
inductive NameError where
  | Untrimmed : NameError
  | InvalidLength : InvalidLengthError → NameError
  | InvalidCharacters : NameError
deriving DecidableEq

/-- Type `Name`: a plain wrapper around a string. -/
structure Name where
  str : List Char
deriving DecidableEq

/-- Constructor `Name::from_raw`: wraps any string with no validation at all. -/
def Name.from_raw (s : List Char) : Name := ⟨s⟩

/-- Accessor `Name::as_str`: read-only view of the wrapped string. -/
def Name.as_str (n : Name) : List Char := n.str

/-- The `NameBulder` trait: the two required operations.  The provided
methods `build` and `build_with_normalize` are defined below exactly as the
trait's default bodies. -/
structure NameBulder (E : Type) where
  validate : List Char → Except E Unit
  normalize : List Char → Except E (List Char)

/-- Trait default method `build`: `self.validate(input)?;
Ok(Name::from_raw(input))`. -/
def NameBulder.build {E : Type} (b : NameBulder E) (input : List Char) :
    Except E Name :=
  match b.validate input with
  | .error e => .error e
  | .ok _ => .ok (Name.from_raw input)

/-- Trait default method `build_with_normalize`: if `validate` succeeds wrap
immediately; otherwise `normalize` (propagating its error), then `build` the
normalized result once. -/
def NameBulder.build_with_normalize {E : Type} (b : NameBulder E)
    (input : List Char) : Except E Name :=
  match b.validate input with
  | .ok _ => .ok (Name.from_raw input)
  | .error _ =>
    match b.normalize input with
    | .error e => .error e
    | .ok normalized_input => b.build normalized_input

/-! ## Normalization (src/crates/name/src/lib.rs) -/

/-- Function `push_separator(output)`: append `-` unless the output already ends
with `-`. -/
def push_separator (output : List Char) : List Char :=
  match output.getLast? with
  | some '-' => output
  | _ => output ++ ['-']

/-- Function `process_char(ch, output)`: lower-case, then append if name-safe,
otherwise push a separator. -/
def process_char (ch : Char) (output : List Char) : List Char :=
  let c := to_ascii_lowercase ch
  if is_name_safe_char c then output ++ [c] else push_separator output

/-- One iteration of the `make_name` loop body for a single source
character: ASCII characters go through `process_char`; non-ASCII characters
are transliterated when possible (each replacement character going through
`process_char`), and otherwise produce a separator. -/
def make_name_step (translit : Char → Option (List Char)) (ch : Char)
    (output : List Char) : List Char :=
  if is_ascii ch then
    process_char ch output
  else
    match translit ch with
    | some transliterated =>
      transliterated.foldl (fun acc trans => process_char trans acc) output
    | none => push_separator output

/-- Function `make_name(input, output)`: run the loop body over every character of
the input, threading the output buffer. -/
def make_name (translit : Char → Option (List Char)) :
    List Char → List Char → List Char
  | [], output => output
  | ch :: rest, output => make_name translit rest (make_name_step translit ch output)

/-- Function `normalize_name(input)`: trim, then `make_name` into an empty buffer. -/
def normalize_name (translit : Char → Option (List Char)) (input : List Char) :
    List Char :=
  make_name translit (trimList input) []

/-! ## `DefaultNameBuilder` -/

/-- Struct `DefaultNameBuilder`: optional length bounds plus two feature flags. -/
structure DefaultNameBuilder where
  min_length : Option Nat
  max_length : Option Nat
  char_validation_enabled : Bool
  trim_validation_enabled : Bool
deriving DecidableEq

/-- Constructor `DefaultNameBuilder::new()`: min 2, max 512, both validations on. -/
def DefaultNameBuilder.new : DefaultNameBuilder :=
  ⟨some 2, some 512, true, true⟩

/-- The length-check block of `DefaultNameBuilder::validate`: run
`validate_length` only when at least one bound is configured, defaulting an
absent min to 0 and an absent max to the input's own length. -/
def DefaultNameBuilder.length_check (b : DefaultNameBuilder)
    (input : List Char) : Except InvalidLengthError Unit :=
  if b.min_length.isSome || b.max_length.isSome then
    validate_length (byteLen input) (b.min_length.getD 0)
      (b.max_length.getD (byteLen input))
  else
    .ok ()

/-- Method `DefaultNameBuilder::validate`: trim check (when enabled), then length
check (when configured), then charset check (when enabled); first failure
wins. -/
def DefaultNameBuilder.validate (b : DefaultNameBuilder) (input : List Char) :
    Except NameError Unit :=
  if b.trim_validation_enabled && !validate_trimmed input then
    .error .Untrimmed
  else
    match b.length_check input with
    | .error e => .error (.InvalidLength e)
    | .ok _ =>
      if b.char_validation_enabled && !validate_name_chars input then
        .error .InvalidCharacters
      else
        .ok ()

/-- Method `DefaultNameBuilder::normalize`: trim when trim validation is enabled,
then `make_name` when char validation is enabled (otherwise copy the input
through); always succeeds. -/
def DefaultNameBuilder.normalize (b : DefaultNameBuilder)
    (translit : Char → Option (List Char)) (input : List Char) :
    Except NameError (List Char) :=
  let input := if b.trim_validation_enabled then trimList input else input
  let normalized := if b.char_validation_enabled then make_name translit input [] else input
  .ok normalized

/-- The `NameBulder` instance for `DefaultNameBuilder` (the trait vtable:
its `validate` and `normalize` together with the default `build` and
`build_with_normalize`). -/
def defaultBuilder (translit : Char → Option (List Char))
    (b : DefaultNameBuilder) : NameBulder NameError :=
  ⟨b.validate, b.normalize translit⟩

/-- A source character the `make_name` loop turns into a bare separator:
an ASCII character whose lower-cased form is not name-safe, or a non-ASCII
character the transliterator has no mapping for. -/
def is_unsafe_char (translit : Char → Option (List Char)) (ch : Char) : Bool :=
  (is_ascii ch && !is_name_safe_char (to_ascii_lowercase ch)) ||
    (!is_ascii ch && (translit ch).isNone)

/-! ## Helper lemmas -/

theorem getLast?_push_separator (output : List Char) :
    (push_separator output).getLast? = some '-' := by
  unfold push_separator
  split
  · assumption
  · exact List.getLast?_concat _

theorem push_separator_of_getLast (l : List Char) (h : l.getLast? = some '-') :
    push_separator l = l := by
  unfold push_separator
  rw [h]
  rfl

theorem push_separator_idem (l : List Char) :
    push_separator (push_separator l) = push_separator l :=
  push_separator_of_getLast _ (getLast?_push_separator l)

theorem push_separator_of_ne (l : List Char) (h : l.getLast? ≠ some '-') :
    push_separator l = l ++ ['-'] := by
  unfold push_separator
  split
  · exact absurd (by assumption) h
  · rfl

theorem make_name_step_unsafe (t : Char → Option (List Char)) (c : Char)
    (h : is_unsafe_char t c = true) (out : List Char) :
    make_name_step t c out = push_separator out := by
  unfold is_unsafe_char at h
  unfold make_name_step
  cases hA : is_ascii c with
  | false =>
    rw [hA] at h
    simp only [Bool.false_and, Bool.not_false, Bool.true_and, Bool.false_or] at h
    rw [if_neg (by simp)]
    cases hT : t c with
    | none => rfl
    | some r => rw [hT] at h; simp [Option.isNone] at h
  | true =>
    rw [hA] at h
    simp only [Bool.true_and, Bool.not_true, Bool.false_and, Bool.or_false,
      Bool.not_eq_true'] at h
    rw [if_pos rfl]
    unfold process_char
    rw [if_neg (by rw [h]; exact Bool.false_ne_true)]

theorem make_name_cons (t : Char → Option (List Char)) (c : Char)
    (rest out : List Char) :
    make_name t (c :: rest) out = make_name t rest (make_name_step t c out) := rfl

theorem make_name_unsafe_run (t : Char → Option (List Char)) :
    ∀ (u : List Char), u ≠ [] → u.all (is_unsafe_char t) = true →
    ∀ out, make_name t u out = push_separator out
  | [], h, _, _ => absurd rfl h
  | [c], _, hu, out => by
    rw [List.all_cons, List.all_nil, Bool.and_true] at hu
    rw [make_name_cons, make_name_step_unsafe t c hu]
    rfl
  | c :: c2 :: r2, _, hu, out => by
    rw [List.all_cons, Bool.and_eq_true] at hu
    rw [make_name_cons, make_name_step_unsafe t c hu.1,
      make_name_unsafe_run t (c2 :: r2) (List.cons_ne_nil _ _) hu.2
        (push_separator out),
      push_separator_idem]

theorem make_name_append (t : Char → Option (List Char)) (a b out : List Char) :
    make_name t (a ++ b) out = make_name t b (make_name t a out) := by
  induction a generalizing out with
  | nil => rfl
  | cons c rest ih => rw [List.cons_append, make_name_cons, make_name_cons, ih]

theorem name_safe_char_cases {c : Char} (h : is_name_safe_char c = true) :
    (97 ≤ c.toNat ∧ c.toNat ≤ 122) ∨ (48 ≤ c.toNat ∧ c.toNat ≤ 57) ∨
      c.toNat = 45 ∨ c.toNat = 95 := by
  simp only [is_name_safe_char, is_ascii_lowercase, is_ascii_digit,
    Bool.or_eq_true, Bool.and_eq_true, decide_eq_true_eq, beq_iff_eq] at h
  omega

theorem safe_char_is_ascii {c : Char} (h : is_name_safe_char c = true) :
    is_ascii c = true := by
  have hc := name_safe_char_cases h
  simp only [is_ascii, decide_eq_true_eq]
  omega

theorem safe_char_lower_id {c : Char} (h : is_name_safe_char c = true) :
    to_ascii_lowercase c = c := by
  have hc := name_safe_char_cases h
  unfold to_ascii_lowercase
  rw [if_neg]
  simp only [is_ascii_uppercase, Bool.and_eq_true, decide_eq_true_eq,
    Bool.not_eq_true]
  intro hcon
  omega

theorem safe_char_not_whitespace {c : Char} (h : is_name_safe_char c = true) :
    is_whitespace c = false := by
  have hc := name_safe_char_cases h
  simp only [is_whitespace, Bool.or_eq_false_iff, Bool.and_eq_false_iff,
    decide_eq_false_iff_not, beq_eq_false_iff_ne, ne_eq]
  omega

theorem safe_char_utf8_len {c : Char} (h : is_name_safe_char c = true) :
    char_utf8_len c = 1 := by
  have hc := name_safe_char_cases h
  unfold char_utf8_len
  rw [if_pos]
  omega

theorem dash_is_safe : is_name_safe_char '-' = true := by decide

theorem byteLen_nil : byteLen [] = 0 := rfl

theorem byteLen_cons (c : Char) (l : List Char) :
    byteLen (c :: l) = char_utf8_len c + byteLen l := by
  simp [byteLen]

theorem byteLen_append (a b : List Char) :
    byteLen (a ++ b) = byteLen a + byteLen b := by
  simp [byteLen]

theorem byteLen_reverse (l : List Char) : byteLen l.reverse = byteLen l := by
  simp only [byteLen, List.map_reverse, List.sum_reverse]

theorem char_utf8_len_pos (c : Char) : 0 < char_utf8_len c := by
  unfold char_utf8_len
  repeat' split
  all_goals omega

theorem byteLen_dropWhile_le (p : Char → Bool) (l : List Char) :
    byteLen (l.dropWhile p) ≤ byteLen l := by
  induction l with
  | nil => exact Nat.le_refl 0
  | cons c rest ih =>
    rw [List.dropWhile_cons]
    split
    · rw [byteLen_cons]
      omega
    · exact Nat.le_refl _

theorem dropWhile_eq_self_of_byteLen {p : Char → Bool} {l : List Char}
    (h : byteLen (l.dropWhile p) = byteLen l) : l.dropWhile p = l := by
  cases l with
  | nil => rfl
  | cons c rest =>
    rw [List.dropWhile_cons] at h ⊢
    by_cases hp : p c = true
    · rw [if_pos hp] at h
      have h1 := byteLen_dropWhile_le p rest
      have h2 := char_utf8_len_pos c
      rw [byteLen_cons] at h
      omega
    · rw [if_neg hp]

theorem trimList_eq_self_of_byteLen {l : List Char}
    (h : byteLen (trimList l) = byteLen l) : trimList l = l := by
  unfold trimList at h ⊢
  have h1 : byteLen ((l.dropWhile is_whitespace).reverse.dropWhile is_whitespace)
      ≤ byteLen (l.dropWhile is_whitespace).reverse :=
    byteLen_dropWhile_le _ _
  rw [byteLen_reverse] at h
  rw [byteLen_reverse] at h1
  have h2 : byteLen (l.dropWhile is_whitespace) ≤ byteLen l :=
    byteLen_dropWhile_le _ _
  have h3 : l.dropWhile is_whitespace = l :=
    dropWhile_eq_self_of_byteLen (by omega)
  rw [h3] at h ⊢
  have h4 : l.reverse.dropWhile is_whitespace = l.reverse :=
    dropWhile_eq_self_of_byteLen (by rw [byteLen_reverse]; omega)
  rw [h4, List.reverse_reverse]

theorem dropWhile_eq_self_of_all {p : Char → Bool} {l : List Char}
    (h : ∀ c ∈ l, p c = false) : l.dropWhile p = l := by
  cases l with
  | nil => rfl
  | cons c rest =>
    rw [List.dropWhile_cons, if_neg]
    rw [h c (List.mem_cons_self c rest)]
    exact Bool.false_ne_true

theorem trimList_eq_self_of_all {l : List Char}
    (h : ∀ c ∈ l, is_whitespace c = false) : trimList l = l := by
  unfold trimList
  rw [dropWhile_eq_self_of_all h,
    dropWhile_eq_self_of_all (fun c hc => h c (List.mem_reverse.mp hc)),
    List.reverse_reverse]

theorem validate_trimmed_iff (l : List Char) :
    validate_trimmed l = true ↔ trimList l = l := by
  unfold validate_trimmed
  rw [Nat.beq_eq_true_eq]
  constructor
  · intro h
    exact trimList_eq_self_of_byteLen h.symm
  · intro h
    rw [h]

theorem validate_name_chars_iff (l : List Char) :
    validate_name_chars l = true ↔ ∀ c ∈ l, is_name_safe_char c = true := by
  unfold validate_name_chars
  exact List.all_eq_true

theorem byteLen_eq_length_of_safe {l : List Char}
    (h : validate_name_chars l = true) : byteLen l = l.length := by
  rw [validate_name_chars_iff] at h
  induction l with
  | nil => rfl
  | cons c rest ih =>
    rw [byteLen_cons, List.length_cons,
      safe_char_utf8_len (h c (List.mem_cons_self c rest)),
      ih (fun x hx => h x (List.mem_cons_of_mem c hx))]
    omega

theorem validate_trimmed_of_safe {l : List Char}
    (h : validate_name_chars l = true) : validate_trimmed l = true := by
  rw [validate_name_chars_iff] at h
  rw [validate_trimmed_iff]
  exact trimList_eq_self_of_all (fun c hc => safe_char_not_whitespace (h c hc))

theorem all_safe_push_separator {out : List Char}
    (h : validate_name_chars out = true) :
    validate_name_chars (push_separator out) = true := by
  unfold push_separator
  split
  · exact h
  · unfold validate_name_chars at h ⊢
    rw [List.all_append, h, List.all_cons, dash_is_safe]
    rfl

theorem all_safe_process_char (c : Char) {out : List Char}
    (h : validate_name_chars out = true) :
    validate_name_chars (process_char c out) = true := by
  unfold process_char
  by_cases hs : is_name_safe_char (to_ascii_lowercase c) = true
  · rw [if_pos hs]
    unfold validate_name_chars at h ⊢
    rw [List.all_append, h, List.all_cons, hs]
    rfl
  · rw [if_neg hs]
    exact all_safe_push_separator h

theorem all_safe_foldl (l : List Char) {out : List Char}
    (h : validate_name_chars out = true) :
    validate_name_chars
      (l.foldl (fun acc trans => process_char trans acc) out) = true := by
  induction l generalizing out with
  | nil => exact h
  | cons c rest ih => exact ih (all_safe_process_char c h)

theorem all_safe_make_name_step (t : Char → Option (List Char)) (c : Char)
    {out : List Char} (h : validate_name_chars out = true) :
    validate_name_chars (make_name_step t c out) = true := by
  unfold make_name_step
  split
  · exact all_safe_process_char c h
  · split
    · exact all_safe_foldl _ h
    · exact all_safe_push_separator h

theorem all_safe_make_name (t : Char → Option (List Char)) (inp : List Char)
    {out : List Char} (h : validate_name_chars out = true) :
    validate_name_chars (make_name t inp out) = true := by
  induction inp generalizing out with
  | nil => exact h
  | cons c rest ih => exact ih (all_safe_make_name_step t c h)

theorem make_name_safe_id (t : Char → Option (List Char)) {r : List Char}
    (h : validate_name_chars r = true) (out : List Char) :
    make_name t r out = out ++ r := by
  induction r generalizing out with
  | nil => rw [List.append_nil]; rfl
  | cons c rest ih =>
    unfold validate_name_chars at h
    rw [List.all_cons, Bool.and_eq_true] at h
    rw [make_name_cons]
    have hstep : make_name_step t c out = out ++ [c] := by
      unfold make_name_step
      rw [if_pos (safe_char_is_ascii h.1)]
      unfold process_char
      rw [safe_char_lower_id h.1, if_pos h.1]
    rw [hstep, ih h.2, List.append_assoc]
    rfl

theorem normalize_name_safe_fixed (t : Char → Option (List Char))
    {r : List Char} (h : validate_name_chars r = true) :
    normalize_name t r = r := by
  unfold normalize_name
  rw [validate_name_chars_iff] at h
  rw [trimList_eq_self_of_all (fun c hc => safe_char_not_whitespace (h c hc))]
  rw [make_name_safe_id t (by rw [validate_name_chars_iff]; exact h) []]
  rfl

theorem all_safe_normalize_name (t : Char → Option (List Char))
    (s : List Char) :
    validate_name_chars (normalize_name t s) = true :=
  all_safe_make_name t (trimList s) rfl

theorem char_eq_of_toNat {c d : Char} (h : c.toNat = d.toNat) : c = d :=
  Char.ext (UInt32.ext h)

theorem build_ok_iff {E : Type} (b : NameBulder E) (input : List Char)
    (n : Name) :
    b.build input = .ok n ↔ b.validate input = .ok () ∧ n = Name.from_raw input := by
  unfold NameBulder.build
  cases hv : b.validate input with
  | ok u =>
    cases u
    constructor
    · intro h
      exact ⟨rfl, (Except.ok.inj h).symm⟩
    · rintro ⟨-, h2⟩
      rw [h2]
  | error e =>
    constructor
    · intro h
      exact Except.noConfusion h
    · rintro ⟨h1, -⟩
      exact Except.noConfusion h1

theorem build_with_normalize_error_validate {E : Type} (b : NameBulder E)
    (input n : List Char) (e : E) (hn : b.normalize input = .ok n)
    (he : b.build_with_normalize input = .error e) :
    b.validate n = .error e := by
  unfold NameBulder.build_with_normalize at he
  cases hv : b.validate input with
  | ok u =>
    rw [hv] at he
    exact Except.noConfusion he
  | error e0 =>
    rw [hv, hn] at he
    have he2 : b.build n = .error e := he
    unfold NameBulder.build at he2
    cases hvr : b.validate n with
    | ok u =>
      rw [hvr] at he2
      exact Except.noConfusion he2
    | error e2 =>
      rw [hvr] at he2
      simpa using he2

/-- C1: `build_with_normalize` first consults `validate`; when validation
succeeds it returns the input wrapped as a `Name` unchanged, and its result
does not depend on the `normalize` operation at all; when validation fails
it normalizes, propagates a normalization error, and otherwise calls
`build` on the normalized result exactly once, surfacing that second
validation failure as-is. -/
theorem c1_build_with_normalize_contract {E : Type} (b b2 : NameBulder E)
    (hsame : b2.validate = b.validate) (input : List Char) :
    (b.validate input = .ok () →
      b.build_with_normalize input = .ok (Name.from_raw input) ∧
      b.build_with_normalize input = b2.build_with_normalize input) ∧
    (∀ e, b.validate input = .error e →
      b.build_with_normalize input =
        match b.normalize input with
        | .error e2 => .error e2
        | .ok n => b.build n) := by
  constructor
  · intro hv
    unfold NameBulder.build_with_normalize
    rw [hsame, hv]
    exact ⟨rfl, rfl⟩
  · intro e hv
    unfold NameBulder.build_with_normalize
    rw [hv]

/-- C1 witness: on the already-valid input `"ab"` the default builder's
`build_with_normalize` returns the input unchanged, and the result agrees
with a builder whose `normalize` is replaced by a different function. -/
theorem c1_witness :
    (defaultBuilder (fun _ => none) DefaultNameBuilder.new).build_with_normalize
        (['a', 'b']) = .ok (Name.from_raw ['a', 'b']) ∧
    (defaultBuilder (fun _ => none) DefaultNameBuilder.new).build_with_normalize
        (['a', 'b']) =
      NameBulder.build_with_normalize
        ⟨DefaultNameBuilder.new.validate, fun _ => .ok []⟩ ['a', 'b'] :=
  (c1_build_with_normalize_contract
    (defaultBuilder (fun _ => none) DefaultNameBuilder.new)
    ⟨DefaultNameBuilder.new.validate, fun _ => .ok []⟩ rfl ['a', 'b']).1
    (by decide)

/-- C4 counterexample: `Name::from_raw` is a public constructor performing
no validation: it wraps the single-space string even though that string
fails the default validator configuration, so not every publicly obtainable
`Name` satisfies the active validators. -/
theorem c4_from_raw_counterexample :
    Name.as_str (Name.from_raw [' ']) = [' '] ∧
    DefaultNameBuilder.new.validate (Name.as_str (Name.from_raw [' '])) =
      .error .Untrimmed :=
  ⟨rfl, by decide⟩

/-- C4 (amended): every `Name` produced by `build` or
`build_with_normalize` satisfies the `validate` of the builder that
produced it (`build` additionally returns the input unchanged); the bare
`Name::from_raw` constructor, by contrast, performs no validation. -/
theorem c4_built_names_validate {E : Type} (b : NameBulder E)
    (input : List Char) (n : Name) :
    (b.build input = .ok n →
      b.validate (Name.as_str n) = .ok () ∧ n = Name.from_raw input) ∧
    (b.build_with_normalize input = .ok n →
      b.validate (Name.as_str n) = .ok ()) := by
  constructor
  · intro h
    obtain ⟨h1, h2⟩ := (build_ok_iff b input n).mp h
    rw [h2]
    exact ⟨h1, rfl⟩
  · intro h
    unfold NameBulder.build_with_normalize at h
    cases hv : b.validate input with
    | ok u =>
      rw [hv] at h
      have h2 : n = Name.from_raw input := (Except.ok.inj h).symm
      rw [h2]
      cases u
      exact hv
    | error e =>
      rw [hv] at h
      cases hn : b.normalize input with
      | error e2 =>
        rw [hn] at h
        exact Except.noConfusion h
      | ok m =>
        rw [hn] at h
        obtain ⟨h1, h2⟩ := (build_ok_iff b m n).mp h
        rw [h2]
        exact h1

/-- C4 witness: building `"ab"` with the default builder yields a `Name`
whose string passes that builder's `validate`. -/
theorem c4_witness :
    (defaultBuilder (fun _ => none) DefaultNameBuilder.new).validate
        (Name.as_str (Name.from_raw ['a', 'b'])) = .ok () ∧
    Name.from_raw ['a', 'b'] = Name.from_raw ['a', 'b'] :=
  (c4_built_names_validate
    (defaultBuilder (fun _ => none) DefaultNameBuilder.new) ['a', 'b']
    (Name.from_raw ['a', 'b'])).1 (by decide)

/-- C8: `validate_length(len, min, max)` succeeds iff `min ≤ len ≤ max`
(boundary equalities succeed), and otherwise fails with an
`InvalidLengthError` carrying exactly the given bounds and actual length. -/
theorem c8_validate_length_bounds (len min max : Nat) :
    (validate_length len min max = .ok () ↔ min ≤ len ∧ len ≤ max) ∧
    (¬(min ≤ len ∧ len ≤ max) →
      validate_length len min max = .error ⟨min, max, len⟩) := by
  unfold validate_length
  split
  next h =>
    simp only [Bool.or_eq_true, decide_eq_true_eq] at h
    constructor
    · constructor
      · intro hok
        exact Except.noConfusion hok
      · intro hb
        omega
    · intro _
      rfl
  next h =>
    simp only [Bool.or_eq_true, decide_eq_true_eq, not_or, Nat.not_lt] at h
    constructor
    · constructor
      · intro _
        exact ⟨h.1, h.2⟩
      · intro _
        rfl
    · intro hb
      exact absurd ⟨h.1, h.2⟩ hb

/-- C8 witness: length 2 with bounds [3, 40] fails carrying exactly
(3, 40, 2), and boundary length 3 succeeds. -/
theorem c8_witness :
    validate_length 2 3 40 = .error ⟨3, 40, 2⟩ ∧
    validate_length 3 3 40 = .ok () :=
  ⟨(c8_validate_length_bounds 2 3 40).2 (by decide),
   (c8_validate_length_bounds 3 3 40).1.mpr (by decide)⟩

/-- C9: a character is name-safe iff it is an ASCII lowercase letter
(code 97..122), an ASCII digit (code 48..57), `-` or `_`, and
`validate_name_chars` holds iff every character of the string is name-safe
(in particular it holds for the empty string). -/
theorem c9_name_safe_char_spec (s : List Char) :
    (∀ c : Char, is_name_safe_char c = true ↔
      ((97 ≤ c.toNat ∧ c.toNat ≤ 122) ∨ (48 ≤ c.toNat ∧ c.toNat ≤ 57) ∨
        c = '-' ∨ c = '_')) ∧
    (validate_name_chars s = true ↔ ∀ c ∈ s, is_name_safe_char c = true) ∧
    validate_name_chars [] = true := by
  refine ⟨fun c => ⟨fun h => ?_, fun h => ?_⟩, validate_name_chars_iff s, rfl⟩
  · have hc := name_safe_char_cases h
    rcases hc with h1 | h2 | h3 | h4
    · exact Or.inl h1
    · exact Or.inr (Or.inl h2)
    · exact Or.inr (Or.inr (Or.inl (char_eq_of_toNat h3)))
    · exact Or.inr (Or.inr (Or.inr (char_eq_of_toNat h4)))
  · simp only [is_name_safe_char, is_ascii_lowercase, is_ascii_digit,
      Bool.or_eq_true, Bool.and_eq_true, decide_eq_true_eq, beq_iff_eq]
    rcases h with h1 | h2 | h3 | h4
    · omega
    · omega
    · rw [h3]
      decide
    · rw [h4]
      decide

/-- C10: `DefaultNameBuilder::normalize` always succeeds, for every
configuration and transliterator; consequently an error from
`build_with_normalize` on a `DefaultNameBuilder` is exactly a validation
error on the normalized string. -/
theorem c10_normalize_never_fails (t : Char → Option (List Char))
    (b : DefaultNameBuilder) (input : List Char) :
    (∃ r, b.normalize t input = .ok r) ∧
    (∀ e, (defaultBuilder t b).build_with_normalize input = .error e →
      ∃ n, b.normalize t input = .ok n ∧ b.validate n = .error e) := by
  refine ⟨⟨_, rfl⟩, fun e he => ⟨_, rfl, ?_⟩⟩
  exact build_with_normalize_error_validate (defaultBuilder t b) input _ e rfl he

/-- C10 witness: on input `"x"` (too short) every branch is exercised:
normalization succeeds with `"x"` and the build error is that string's
length validation failure. -/
theorem c10_witness :
    ∃ n, DefaultNameBuilder.new.normalize (fun _ => none) ['x'] = .ok n ∧
      DefaultNameBuilder.new.validate n =
        .error (.InvalidLength ⟨2, 512, 1⟩) :=
  (c10_normalize_never_fails (fun _ => none) DefaultNameBuilder.new ['x']).2
    (.InvalidLength ⟨2, 512, 1⟩) (by decide)

theorem trim_cond_eq_false {b : DefaultNameBuilder} {input : List Char}
    (hTr : b.trim_validation_enabled = true → validate_trimmed input = true) :
    (b.trim_validation_enabled && !validate_trimmed input) = false := by
  cases h : b.trim_validation_enabled with
  | false => rfl
  | true => rw [hTr h]; rfl

theorem validate_eq_untrimmed {b : DefaultNameBuilder} {input : List Char}
    (h1 : b.trim_validation_enabled = true)
    (h2 : validate_trimmed input = false) :
    b.validate input = .error .Untrimmed := by
  unfold DefaultNameBuilder.validate
  rw [h1, h2]
  rfl

theorem validate_eq_length {b : DefaultNameBuilder} {input : List Char}
    {e : InvalidLengthError}
    (hTr : b.trim_validation_enabled = true → validate_trimmed input = true)
    (hL : b.length_check input = .error e) :
    b.validate input = .error (.InvalidLength e) := by
  unfold DefaultNameBuilder.validate
  rw [trim_cond_eq_false hTr, hL]
  rfl

theorem validate_eq_invalid_chars {b : DefaultNameBuilder} {input : List Char}
    (hTr : b.trim_validation_enabled = true → validate_trimmed input = true)
    (hL : b.length_check input = .ok ())
    (hc : b.char_validation_enabled = true)
    (hn : validate_name_chars input = false) :
    b.validate input = .error .InvalidCharacters := by
  unfold DefaultNameBuilder.validate
  rw [trim_cond_eq_false hTr, hL, hc, hn]
  rfl

theorem validate_eq_ok {b : DefaultNameBuilder} {input : List Char}
    (hTr : b.trim_validation_enabled = true → validate_trimmed input = true)
    (hL : b.length_check input = .ok ())
    (hCh : b.char_validation_enabled = true → validate_name_chars input = true) :
    b.validate input = .ok () := by
  unfold DefaultNameBuilder.validate
  rw [trim_cond_eq_false hTr, hL]
  cases hcv : b.char_validation_enabled with
  | false => rfl
  | true => rw [hCh hcv]; rfl

/-- C5: `DefaultNameBuilder::validate` surfaces exactly the first failing
check in the order trim, length, charset: it returns `Untrimmed` whenever
trim validation is enabled and the input has boundary whitespace; returns
an `InvalidLength` error only when the trim check passes or is disabled and
the length check fails; returns `InvalidCharacters` only when both earlier
checks pass or are disabled; and returns `Ok(())` iff every enabled check
passes.  Errors are never aggregated: the result is a single error. -/
theorem c5_validate_first_failing_check (b : DefaultNameBuilder)
    (input : List Char) :
    (b.trim_validation_enabled = true → validate_trimmed input = false →
      b.validate input = .error .Untrimmed) ∧
    (∀ e, b.validate input = .error (.InvalidLength e) →
      (b.trim_validation_enabled = true → validate_trimmed input = true) ∧
      b.length_check input = .error e) ∧
    (b.validate input = .error .InvalidCharacters →
      (b.trim_validation_enabled = true → validate_trimmed input = true) ∧
      b.length_check input = .ok () ∧
      b.char_validation_enabled = true ∧ validate_name_chars input = false) ∧
    (b.validate input = .ok () ↔
      ((b.trim_validation_enabled = true → validate_trimmed input = true) ∧
        b.length_check input = .ok () ∧
        (b.char_validation_enabled = true → validate_name_chars input = true))) := by
  by_cases hT : b.trim_validation_enabled = true ∧ validate_trimmed input = false
  · have hv := validate_eq_untrimmed hT.1 hT.2
    refine ⟨fun _ _ => hv, fun e he => ?_, fun he => ?_, ?_⟩
    · rw [hv] at he; simp at he
    · rw [hv] at he; simp at he
    · rw [hv]
      constructor
      · intro h; simp at h
      · rintro ⟨htr, -, -⟩
        have h2 := hT.2
        rw [htr hT.1] at h2
        exact Bool.noConfusion h2
  · have hTr : b.trim_validation_enabled = true → validate_trimmed input = true := by
      intro h
      cases hvt : validate_trimmed input with
      | true => rfl
      | false => exact absurd ⟨h, hvt⟩ hT
    cases hL : b.length_check input with
    | error e0 =>
      have hv := validate_eq_length hTr hL
      refine ⟨fun h1 h2 => absurd (hTr h1) (by rw [h2]; simp),
        fun e he => ?_, fun he => ?_, ?_⟩
      · rw [hv] at he
        have h3 := Except.error.inj he
        injection h3 with h4
        exact ⟨hTr, by rw [h4]⟩
      · rw [hv] at he; simp at he
      · rw [hv]
        constructor
        · intro h; simp at h
        · rintro ⟨-, h2, -⟩
          simp at h2
    | ok u =>
      cases u
      by_cases hC : b.char_validation_enabled = true ∧ validate_name_chars input = false
      · have hv := validate_eq_invalid_chars hTr hL hC.1 hC.2
        refine ⟨fun h1 h2 => absurd (hTr h1) (by rw [h2]; simp),
          fun e he => ?_, fun _ => ⟨hTr, rfl, hC.1, hC.2⟩, ?_⟩
        · rw [hv] at he; simp at he
        · rw [hv]
          constructor
          · intro h; simp at h
          · rintro ⟨-, -, h3⟩
            have h2 := hC.2
            rw [h3 hC.1] at h2
            exact Bool.noConfusion h2
      · have hCh : b.char_validation_enabled = true →
            validate_name_chars input = true := by
          intro h
          cases hcv : validate_name_chars input with
          | true => rfl
          | false => exact absurd ⟨h, hcv⟩ hC
        have hv := validate_eq_ok hTr hL hCh
        refine ⟨fun h1 h2 => absurd (hTr h1) (by rw [h2]; simp),
          fun e he => ?_, fun he => ?_, ?_⟩
        · rw [hv] at he; simp at he
        · rw [hv] at he; simp at he
        · rw [hv]
          exact ⟨fun _ => ⟨hTr, rfl, hCh⟩, fun _ => rfl⟩

/-- C5 witness: on `" a"` (boundary whitespace, also invalid characters and
within length bounds) the default configuration reports `Untrimmed`: the
trim check wins. -/
theorem c5_witness :
    DefaultNameBuilder.new.validate [' ', 'a'] = .error .Untrimmed :=
  (c5_validate_first_failing_check DefaultNameBuilder.new [' ', 'a']).1
    rfl (by decide)

/-- C6: whenever `DefaultNameBuilder::normalize` yields a string already
passing charset and trim validation, normalizing that output again is a
no-op; and the free function `normalize_name` is idempotent on its own
output for every input string. -/
theorem c6_normalize_idempotent (t : Char → Option (List Char))
    (b : DefaultNameBuilder) (s r : List Char)
    (_hn : b.normalize t s = .ok r)
    (hchars : validate_name_chars r = true)
    (htrim : validate_trimmed r = true) :
    b.normalize t r = .ok r ∧
    normalize_name t (normalize_name t s) = normalize_name t s := by
  constructor
  · simp only [DefaultNameBuilder.normalize]
    have h1 : (if b.trim_validation_enabled then trimList r else r) = r := by
      split
      · exact (validate_trimmed_iff r).mp htrim
      · rfl
    rw [h1]
    have h2 : (if b.char_validation_enabled then make_name t r [] else r) = r := by
      split
      · rw [make_name_safe_id t hchars []]
        rfl
      · rfl
    rw [h2]
  · exact normalize_name_safe_fixed t (all_safe_normalize_name t s)

/-- C6 witness: normalizing `"Ab"` yields `"ab"`, which passes both checks,
and renormalizing is the identity; `normalize_name` is idempotent there. -/
theorem c6_witness :
    DefaultNameBuilder.new.normalize (fun _ => none) ['a', 'b'] =
      .ok ['a', 'b'] ∧
    normalize_name (fun _ => none)
        (normalize_name (fun _ => none) ['A', 'b']) =
      normalize_name (fun _ => none) ['A', 'b'] :=
  c6_normalize_idempotent (fun _ => none) DefaultNameBuilder.new
    ['A', 'b'] ['a', 'b'] (by decide) (by decide) (by decide)

/-- C7: for every string over the restricted alphabet whose length lies
within the configured inclusive bounds (each bound constraining only when
present), `build` succeeds and returns a `Name` wrapping the input exactly,
for every configuration and transliterator. -/
theorem c7_identity_roundtrip (t : Char → Option (List Char))
    (b : DefaultNameBuilder) (s : List Char)
    (hchars : validate_name_chars s = true)
    (hmin : ∀ m, b.min_length = some m → m ≤ s.length)
    (hmax : ∀ m, b.max_length = some m → s.length ≤ m) :
    (defaultBuilder t b).build s = .ok (Name.from_raw s) := by
  rw [build_ok_iff]
  refine ⟨?_, rfl⟩
  show b.validate s = .ok ()
  have hlen : b.length_check s = .ok () := by
    unfold DefaultNameBuilder.length_check
    split
    · rw [byteLen_eq_length_of_safe hchars]
      unfold validate_length
      rw [if_neg]
      simp only [Bool.or_eq_true, decide_eq_true_eq, not_or, Nat.not_lt]
      constructor
      · cases hm : b.min_length with
        | none => exact Nat.zero_le _
        | some m => exact hmin m hm
      · cases hM : b.max_length with
        | none => exact Nat.le_refl _
        | some m => exact hmax m hM
    · rfl
  exact validate_eq_ok (fun _ => validate_trimmed_of_safe hchars) hlen
    (fun _ => hchars)

/-- C7 witness: `build` on the already-restricted `"ab"` under the default
bounds returns it unchanged. -/
theorem c7_witness :
    (defaultBuilder (fun _ => none) DefaultNameBuilder.new).build ['a', 'b'] =
      .ok (Name.from_raw ['a', 'b']) :=
  c7_identity_roundtrip (fun _ => none) DefaultNameBuilder.new ['a', 'b']
    (by decide)
    (by intro m hm; injection hm with h; rw [← h]; decide)
    (by intro m hm; injection hm with h; rw [← h]; decide)

/-- C2 counterexample: `"AAA"` is a maximal run of three consecutive
characters none of which is name-safe (and, being ASCII, the transliterator
is never consulted for them), yet `normalize_name` maps it to `"aaa"`, not
to a single `-`: uppercase ASCII letters are lower-cased, not collapsed. -/
theorem c2_run_counterexample :
    (['A', 'A', 'A'].all fun c => !is_name_safe_char c) = true ∧
    normalize_name (fun _ => none) ['A', 'A', 'A'] = ['a', 'a', 'a'] ∧
    ['a', 'a', 'a'] ≠ ['-'] := by decide

/-- C2 (amended): with "unsafe" as the algorithm's separator-producing
class — an ASCII character whose lower-cased form is not name-safe, or a
non-ASCII character with no transliteration mapping — processing any
nonempty run of unsafe characters is exactly one `push_separator`: it
appends a single `-` unless the buffer already ends with `-`, regardless of
the run's length; within a full input the run contributes exactly that one
separator between its surroundings. -/
theorem c2_unsafe_run_single_separator (t : Char → Option (List Char))
    (u : List Char) (hne : u ≠ []) (hu : u.all (is_unsafe_char t) = true) :
    (∀ output, make_name t u output = push_separator output) ∧
    (∀ output, output.getLast? ≠ some '-' →
      make_name t u output = output ++ ['-']) ∧
    (∀ p sfx, make_name t (p ++ (u ++ sfx)) [] =
      make_name t sfx (push_separator (make_name t p []))) := by
  refine ⟨make_name_unsafe_run t u hne hu, fun out hlast => ?_, fun p sfx => ?_⟩
  · rw [make_name_unsafe_run t u hne hu out, push_separator_of_ne out hlast]
  · rw [make_name_append, make_name_append, make_name_unsafe_run t u hne hu]

/-- C2 witness: the three-character unsafe run `"!@#"` appended after the
buffer `"a"` contributes exactly one `-`. -/
theorem c2_witness :
    make_name (fun _ => none) ['!', '@', '#'] ['a'] = ['a'] ++ ['-'] :=
  (c2_unsafe_run_single_separator (fun _ => none) ['!', '@', '#'] (by decide)
    (by decide)).2.1 ['a'] (by decide)

/-- C3 counterexample: two inputs consisting only of non-name-safe
characters for which `normalize_name` does not return `"-"`: the
all-whitespace `" "` is trimmed away to the empty string, and `"BB"`
(uppercase, hence not name-safe) is lower-cased to `"bb"`. -/
theorem c3_all_unsafe_counterexample :
    (([' '].all fun c => !is_name_safe_char c) = true ∧
      normalize_name (fun _ => none) [' '] = [] ∧
      ([] : List Char) ≠ ['-']) ∧
    ((['B', 'B'].all fun c => !is_name_safe_char c) = true ∧
      normalize_name (fun _ => none) ['B', 'B'] = ['b', 'b'] ∧
      ['b', 'b'] ≠ ['-']) := by decide

/-- C3 (amended): an input whose trimmed form is nonempty and consists only
of unsafe characters (ASCII whose lower-cased form is not name-safe, or
unmapped non-ASCII) normalizes to exactly `"-"`; and an unsafe run at the
very start (resp. end) of the input leaves a leading (resp. trailing) `-`
that is not stripped: `normalize_name "!!!hello" = "-hello"` and
`normalize_name "hello!!!" = "hello-"` for every transliterator. -/
theorem c3_all_unsafe_dash (t : Char → Option (List Char)) (input : List Char)
    (hne : trimList input ≠ [])
    (hu : (trimList input).all (is_unsafe_char t) = true) :
    normalize_name t input = ['-'] ∧
    (∀ t2, normalize_name t2 ['!', '!', '!', 'h', 'e', 'l', 'l', 'o'] =
      ['-', 'h', 'e', 'l', 'l', 'o']) ∧
    (∀ t2, normalize_name t2 ['h', 'e', 'l', 'l', 'o', '!', '!', '!'] =
      ['h', 'e', 'l', 'l', 'o', '-']) := by
  refine ⟨?_, fun t2 => rfl, fun t2 => rfl⟩
  unfold normalize_name
  rw [make_name_unsafe_run t (trimList input) hne hu []]
  rfl

/-- C3 witness: `"@@"` (all unsafe, nothing trimmed) normalizes to `"-"`,
with the two literal edge-case outputs alongside. -/
theorem c3_witness :
    normalize_name (fun _ => none) ['@', '@'] = ['-'] :=
  (c3_all_unsafe_dash (fun _ => none) ['@', '@'] (by decide) (by decide)).1
